import Mathlib

/-!
Verification development for the cluster-synchronization core of gohan
(src/server/sync.go): the transactional outbox writer, the commit
notifier, the sync pump, the path renderer, and the state/monitoring
reconcilers.  Go code is shallowly embedded: stateful code becomes
explicit state passing, fallible code returns Option (none = Go error),
Go int64 becomes Int, and external collaborators (the database
transaction, the schema registry, the sync backend client and JSON
codec) become explicit environment records of functions.
-/

namespace Gohan

/-- Constants from sync.go. -/
def configPfx : String := "/config/"

/-- State key namespace in the sync backend. -/
def statePfx : String := "/state/"

/-- Monitoring key namespace in the sync backend. -/
def monitoringPfx : String := "/monitoring/"

/-- Batch limit of the event paginator in listEvents. -/
def eventPollingLimit : Nat := 10000

/-- Dynamic values as they appear in Go interface-typed attribute maps.
Go distinguishes int from int64 at type assertions, and JSON decoding
yields float64 for numbers; float64 payloads are modelled over the
integers they carry, since every use in sync.go casts them to int64. -/
inductive GoVal where
  | vint (n : Int)
  | vint64 (n : Int)
  | vfloat (n : Int)
  | vstr (s : String)
  | vnull
deriving DecidableEq

/-- The Go type assertion value.(int): succeeds only on a value that is
dynamically an int (not an int64, not a float64). -/
def asGoInt : GoVal → Option Int
  | .vint n => some n
  | _ => none

/-- Key lookup in an attribute map (Go map[string]interface access). -/
def lookupKV (k : String) : List (String × GoVal) → Option GoVal
  | [] => none
  | (k2, v) :: rest => if k2 = k then some v else lookupKV k rest

/-- A segment of a sync_key_template: literal text or a field reference
written with double-brace placeholders in the source schema string. -/
inductive Seg where
  | lit (s : String)
  | hole (name : String)
deriving DecidableEq

/-- Modelled from the spec: schema.GenerateCustomPath lives in the
schema package, outside src/.  Per the spec, the renderer substitutes
each placeholder with the string form of the matching top-level field
of the body; a missing or malformed field makes it return an error. -/
def renderSegs (data : List (String × GoVal)) : List Seg → Option String
  | [] => some ""
  | .lit s :: rest => (renderSegs data rest).map (fun t => s ++ t)
  | .hole n :: rest =>
    match lookupKV n data with
    | some (.vstr v) => (renderSegs data rest).map (fun t => v ++ t)
    | some (.vint v) => (renderSegs data rest).map (fun t => toString v ++ t)
    | _ => none

/-- The slice of schema.Schema relevant to sync.go: identity, the
state_versioning flag, the nosync metadata flag and the optional
sync_key_template (held pre-parsed into segments). -/
structure SchemaT where
  sid : String
  stateVersioning : Bool
  nosync : Bool
  syncKeyTemplate : Option (List Seg)
deriving DecidableEq

/-- The per-resource state record (transaction.ResourceState). -/
structure StateRec where
  configVersion : Int
  stateVersion : Int
  state : String
  errMsg : String
  monitoring : String
deriving DecidableEq

/-- The slice of schema.Resource used by the outbox writer: identity,
URL path, owning schema, and the result of JSONString() (none models a
serialisation error). -/
structure Resource where
  rid : String
  path : String
  schema : SchemaT
  jsonBody : Option String
deriving DecidableEq

/-- An event row as written to the outbox by logEvent (the id column is
assigned by the database on insert and is not visible to the writer). -/
structure OutboxEvent where
  etype : String
  path : String
  version : Int
  body : String
  timestamp : Int
deriving DecidableEq

/-- The inner transaction.Transaction collaborator wrapped by the
transactionEventLogger, as an abstract state transformer on a database
state of type sigma; none models a Go error return. -/
structure InnerTx (σ : Type) where
  createRes : Resource → σ → Option σ
  updateRes : Resource → σ → Option σ
  deleteRes : SchemaT → String → σ → Option σ
  fetchRes : SchemaT → String → σ → Option Resource
  stateFetch : SchemaT → String → σ → Option StateRec
  commitTx : σ → Option σ

/-- Ambient facts for the outbox writer: whether the schema manager
knows the "event" schema, the clock value used for the timestamp
attribute, and the inner transaction. -/
structure LoggerEnv (σ : Type) where
  eventSchemaFound : Bool
  now : Int
  tx : InnerTx σ

/-- The transactionEventLogger: the wrapped database state, the event
rows inserted through this transaction, and the eventLogged flag. -/
structure LoggerState (σ : Type) where
  inner : σ
  events : List OutboxEvent
  eventLogged : Bool

/-- transactionEventLogger.logEvent: fail if the event schema is not
registered; skip silently when the resource's schema has nosync; fail
if serialising the resource fails; otherwise insert one event row and
set the eventLogged flag. -/
def logEvent {σ : Type} (env : LoggerEnv σ) (eventType : String)
    (r : Resource) (version : Int) (s : LoggerState σ) :
    Option (LoggerState σ) :=
  if env.eventSchemaFound = false then none
  else if r.schema.nosync then some s
  else
    match r.jsonBody with
    | none => none
    | some body =>
      some { s with
        events := s.events ++
          [{ etype := eventType, path := r.path, version := version,
             body := body, timestamp := env.now }],
        eventLogged := true }

/-- transactionEventLogger.Create: run the inner create, then log a
create event with version 1. -/
def tlCreate {σ : Type} (env : LoggerEnv σ) (r : Resource)
    (s : LoggerState σ) : Option (LoggerState σ) :=
  match env.tx.createRes r s.inner with
  | none => none
  | some inner2 => logEvent env "create" r 1 { s with inner := inner2 }

/-- transactionEventLogger.Update: run the inner update; on a
non-versioned schema log version 0, otherwise fetch the state record
after the mutation and log its config_version. -/
def tlUpdate {σ : Type} (env : LoggerEnv σ) (r : Resource)
    (s : LoggerState σ) : Option (LoggerState σ) :=
  match env.tx.updateRes r s.inner with
  | none => none
  | some inner2 =>
    if r.schema.stateVersioning = false then
      logEvent env "update" r 0 { s with inner := inner2 }
    else
      match env.tx.stateFetch r.schema r.rid inner2 with
      | none => none
      | some st =>
        logEvent env "update" r st.configVersion { s with inner := inner2 }

/-- transactionEventLogger.Delete: fetch the row first; on a versioned
schema also fetch the state record before the mutation and use
config_version + 1, else 0; then run the inner delete and log a delete
event carrying the pre-delete JSON body. -/
def tlDelete {σ : Type} (env : LoggerEnv σ) (sch : SchemaT) (resourceID : String)
    (s : LoggerState σ) : Option (LoggerState σ) :=
  match env.tx.fetchRes sch resourceID s.inner with
  | none => none
  | some r =>
    let cvOpt : Option Int :=
      if r.schema.stateVersioning then
        match env.tx.stateFetch sch resourceID s.inner with
        | none => none
        | some st => some (st.configVersion + 1)
      else some 0
    match cvOpt with
    | none => none
    | some configVersion =>
      match env.tx.deleteRes sch resourceID s.inner with
      | none => none
      | some inner2 =>
        logEvent env "delete" r configVersion { s with inner := inner2 }

/-- One mutating operation issued through the decorator. -/
inductive TLOp where
  | createOp (r : Resource)
  | updateOp (r : Resource)
  | deleteOp (sch : SchemaT) (resourceID : String)

/-- Dispatch one operation through the transactionEventLogger. -/
def runOp {σ : Type} (env : LoggerEnv σ) : TLOp → LoggerState σ →
    Option (LoggerState σ)
  | .createOp r, s => tlCreate env r s
  | .updateOp r, s => tlUpdate env r s
  | .deleteOp sch resourceID, s => tlDelete env sch resourceID s

/-- Run a sequence of operations through the decorator, stopping at the
first error (the enclosing transaction would roll back). -/
def runOps {σ : Type} (env : LoggerEnv σ) : List TLOp → LoggerState σ →
    Option (LoggerState σ)
  | [], s => some s
  | op :: rest, s =>
    match runOp env op s with
    | none => none
    | some s2 => runOps env rest s2

/-- The same operation issued directly against the inner transaction,
without the decorator. -/
def runInnerOp {σ : Type} (env : LoggerEnv σ) : TLOp → σ → Option σ
  | .createOp r, s => env.tx.createRes r s
  | .updateOp r, s => env.tx.updateRes r s
  | .deleteOp sch resourceID, s => env.tx.deleteRes sch resourceID s

/-- A sequence of raw inner mutations. -/
def runInnerOps {σ : Type} (env : LoggerEnv σ) : List TLOp → σ → Option σ
  | [], s => some s
  | op :: rest, s =>
    match runInnerOp env op s with
    | none => none
    | some s2 => runInnerOps env rest s2

/-- Whether the schema consulted by logEvent for this operation carries
the nosync flag: for create/update the argument resource's schema, for
delete the schema of the row fetched before deletion. -/
def opNosync {σ : Type} (env : LoggerEnv σ) : TLOp → σ → Bool
  | .createOp r, _ => r.schema.nosync
  | .updateOp r, _ => r.schema.nosync
  | .deleteOp sch resourceID, s =>
    match env.tx.fetchRes sch resourceID s with
    | some r => r.schema.nosync
    | none => false

/-- The schema named statically by an operation (for delete, the schema
argument rather than the fetched row's schema). -/
def opSchema : TLOp → SchemaT
  | .createOp r => r.schema
  | .updateOp r => r.schema
  | .deleteOp sch _ => sch

/-- The expected event row for an operation, written from the spec's
capture rules (section 4.1): create logs version 1; update logs 0 on a
non-versioned schema and the config_version fetched after the mutation
on a versioned one; delete logs 0 on a non-versioned schema and
config_version + 1 fetched before the mutation on a versioned one, with
the body fetched before the delete. -/
def specEvent {σ : Type} (env : LoggerEnv σ) (op : TLOp) (s : σ) :
    Option OutboxEvent :=
  match op with
  | .createOp r =>
    (r.jsonBody).map (fun b =>
      { etype := "create", path := r.path, version := 1, body := b,
        timestamp := env.now })
  | .updateOp r =>
    if r.schema.stateVersioning = false then
      (r.jsonBody).map (fun b =>
        { etype := "update", path := r.path, version := 0, body := b,
          timestamp := env.now })
    else
      match env.tx.updateRes r s with
      | none => none
      | some s2 =>
        match env.tx.stateFetch r.schema r.rid s2 with
        | none => none
        | some st =>
          (r.jsonBody).map (fun b =>
            { etype := "update", path := r.path, version := st.configVersion,
              body := b, timestamp := env.now })
  | .deleteOp sch resourceID =>
    match env.tx.fetchRes sch resourceID s with
    | none => none
    | some r =>
      if r.schema.stateVersioning then
        match env.tx.stateFetch sch resourceID s with
        | none => none
        | some st =>
          (r.jsonBody).map (fun b =>
            { etype := "delete", path := r.path,
              version := st.configVersion + 1, body := b,
              timestamp := env.now })
      else
        (r.jsonBody).map (fun b =>
          { etype := "delete", path := r.path, version := 0, body := b,
            timestamp := env.now })

/-- Non-blocking send on the single-slot commit notifier channel: an
empty slot is filled, a full slot discards the signal. -/
def nbPost : Option Nat → Option Nat
  | none => some 1
  | some k => some k

/-- transactionEventLogger.Commit: commit the inner transaction; if no
event was logged return without touching the notifier, otherwise do a
non-blocking post to the single-slot channel.  The result pairs the
committed database state with the channel slot. -/
def tlCommit {σ : Type} (env : LoggerEnv σ) (s : LoggerState σ)
    (slot : Option Nat) : Option (σ × Option Nat) :=
  match env.tx.commitTx s.inner with
  | none => none
  | some inner2 =>
    if s.eventLogged = false then some (inner2, slot)
    else some (inner2, nbPost slot)

/-! ## The sync pump (Server.Sync, syncEvent, generatePath) -/

/-- The JSON document PUT to the sync backend for create/update events,
standing for the marshalled object with fields body and version. -/
structure ContentDoc where
  body : String
  version : Int
deriving DecidableEq

/-- One call issued to the sync backend client. -/
inductive SyncOp where
  | put (key : String) (val : ContentDoc)
  | del (key : String)
deriving DecidableEq

/-- The sync backend: its key-value entries, plus the trace of calls
issued against it (a call is recorded whether or not it succeeds). -/
structure SyncKV where
  entries : List (String × ContentDoc)
  ops : List SyncOp
deriving DecidableEq

/-- Replace or append one backend entry. -/
def kvPutEntry (k : String) (v : ContentDoc) :
    List (String × ContentDoc) → List (String × ContentDoc)
  | [] => [(k, v)]
  | (k2, v2) :: rest =>
    if k2 = k then (k, v) :: rest else (k2, v2) :: kvPutEntry k v rest

/-- Remove one backend entry. -/
def kvDelEntry (k : String) (l : List (String × ContentDoc)) :
    List (String × ContentDoc) :=
  l.filter (fun e => e.1 != k)

/-- An event row as read back from the outbox by the pump (here the id
column is visible, and the stored version attribute is dynamically
typed, which matters to the int type assertion in syncEvent). -/
structure EventRow where
  eid : Int
  etype : String
  path : String
  version : GoVal
  body : String
deriving DecidableEq

/-- The world the pump acts on: the outbox table and the sync backend. -/
structure World where
  events : List EventRow
  kv : SyncKV
deriving DecidableEq

/-- The pump's collaborators: the schema registry lookup by URL path,
the JSON decoder, and the success/failure behaviour of each fallible
external call (sync backend writes and deletes, the event-row delete
and the commit of the per-event transaction, and Begin). -/
structure ServerEnv where
  schemaByURLPath : String → SchemaT
  jsonUnmarshal : String → Option (List (String × GoVal))
  syncUpdateOk : String → ContentDoc → Bool
  syncDeleteOk : String → Bool
  dbDeleteOk : Int → Bool
  commitOk : Int → Bool
  beginOk : Bool

/-- sync.Update: record the PUT, and apply it when the backend accepts. -/
def kvUpdate (env : ServerEnv) (key : String) (val : ContentDoc)
    (kv : SyncKV) : Bool × SyncKV :=
  let kv2 := { kv with ops := kv.ops ++ [SyncOp.put key val] }
  if env.syncUpdateOk key val then
    (true, { kv2 with entries := kvPutEntry key val kv2.entries })
  else (false, kv2)

/-- sync.Delete: record the DELETE, and apply it when the backend
accepts. -/
def kvDelete (env : ServerEnv) (key : String) (kv : SyncKV) :
    Bool × SyncKV :=
  let kv2 := { kv with ops := kv.ops ++ [SyncOp.del key] }
  if env.syncDeleteOk key then
    (true, { kv2 with entries := kvDelEntry key kv2.entries })
  else (false, kv2)

/-- generatePath: when the schema for the URL path declares a
sync_key_template, try to decode the body and render the template; on a
decode or render failure fall back to the raw URL path.  The result is
always prefixed with the config namespace. -/
def generatePath (env : ServerEnv) (resourcePath : String) (body : String) :
    String :=
  let curSchema := env.schemaByURLPath resourcePath
  let path :=
    match curSchema.syncKeyTemplate with
    | none => resourcePath
    | some tmpl =>
      match env.jsonUnmarshal body with
      | none => resourcePath
      | some data =>
        match renderSegs data tmpl with
        | none => resourcePath
        | some p => p
  configPfx ++ path

/-- The delete path computed by the delete branch of syncEvent (lines
220 to 230): the raw URL path when the schema has no template; with a
template, the rendered custom path, where the decode error is discarded
(leaving a nil map) and a render failure yields none, which aborts the
event. -/
def deletePathOf (env : ServerEnv) (ev : EventRow) : Option String :=
  match (env.schemaByURLPath ev.path).syncKeyTemplate with
  | none => some ev.path
  | some tmpl =>
    renderSegs ((env.jsonUnmarshal ev.body).getD []) tmpl

/-- The three backend deletes of a delete event, in source order: the
state-prefixed path and the monitoring-prefixed path (results ignored),
then the rendered config key (result decides the event). -/
def deleteThree (env : ServerEnv) (dp : String) (configKey : String)
    (kv : SyncKV) : Bool × SyncKV :=
  let r1 := kvDelete env (statePfx ++ dp) kv
  let r2 := kvDelete env (monitoringPfx ++ dp) r1.2
  kvDelete env configKey r2.2

/-- The sync-backend phase of syncEvent: PUT for create/update (with the
version attribute coerced through the int type assertion, defaulting to
0), the three deletes for delete, and a no-op for any other type. -/
def applyToBackend (env : ServerEnv) (ev : EventRow) (kv : SyncKV) :
    Bool × SyncKV :=
  let path := generatePath env ev.path ev.body
  let version := (asGoInt ev.version).getD 0
  if ev.etype = "create" ∨ ev.etype = "update" then
    kvUpdate env path { body := ev.body, version := version } kv
  else if ev.etype = "delete" then
    match deletePathOf env ev with
    | none => (false, kv)
    | some dp => deleteThree env dp path kv
  else (true, kv)

/-- The tail of syncEvent: when the backend phase succeeded, delete the
event row inside the per-event transaction and commit; any failure
returns an error with the outbox untouched (the transaction is closed
without commit). -/
def finishRow (env : ServerEnv) (ev : EventRow) (w : World)
    (kv2 : SyncKV) (ok1 : Bool) : Bool × World :=
  if ok1 then
    if env.dbDeleteOk ev.eid && env.commitOk ev.eid then
      (true, { events := w.events.filter (fun e => e.eid != ev.eid),
               kv := kv2 })
    else (false, { w with kv := kv2 })
  else (false, { w with kv := kv2 })

/-- Server.syncEvent: open a per-event transaction, apply the event to
the sync backend, then delete its outbox row and commit. -/
def syncEvent (env : ServerEnv) (ev : EventRow) (w : World) :
    Bool × World :=
  if env.beginOk = false then (false, w)
  else
    let r := applyToBackend env ev w.kv
    finishRow env ev w r.2 r.1

/-- Whether the sync-backend side effect of an event succeeds under this
environment: the PUT for create/update, the third (config key) delete
for delete, trivially true for other types, and false when delete-path
rendering fails. -/
def backendApplyOk (env : ServerEnv) (ev : EventRow) : Bool :=
  if ev.etype = "create" ∨ ev.etype = "update" then
    env.syncUpdateOk (generatePath env ev.path ev.body)
      { body := ev.body, version := (asGoInt ev.version).getD 0 }
  else if ev.etype = "delete" then
    match deletePathOf env ev with
    | none => false
    | some _ => env.syncDeleteOk (generatePath env ev.path ev.body)
  else true

/-- The backend calls an event gives rise to (independent of the backend
contents). -/
def opsOfEvent (env : ServerEnv) (ev : EventRow) : List SyncOp :=
  if ev.etype = "create" ∨ ev.etype = "update" then
    [SyncOp.put (generatePath env ev.path ev.body)
      { body := ev.body, version := (asGoInt ev.version).getD 0 }]
  else if ev.etype = "delete" then
    match deletePathOf env ev with
    | none => []
    | some dp =>
      [SyncOp.del (statePfx ++ dp), SyncOp.del (monitoringPfx ++ dp),
       SyncOp.del (generatePath env ev.path ev.body)]
  else []

/-- Insert an event row into an id-sorted list. -/
def insertById (e : EventRow) : List EventRow → List EventRow
  | [] => [e]
  | x :: xs => if e.eid ≤ x.eid then e :: x :: xs else x :: insertById e xs

/-- Sort event rows ascending by id. -/
def sortById (l : List EventRow) : List EventRow :=
  l.foldr insertById []

/-- Ascending-id ordering of a list of event rows. -/
def idSorted (l : List EventRow) : Prop :=
  l.Pairwise (fun a b => a.eid ≤ b.eid)

/-- Modelled from the spec: Server.listEvents delegates ordering and
limiting to the database paginator (outside src/), which per the spec
returns up to 10,000 event rows ordered ascending by id. -/
def listEvents (events : List EventRow) : List EventRow :=
  (sortById events).take eventPollingLimit

/-- The per-event loop of Server.Sync: apply events in order, stopping
at the first error. -/
def syncLoop (env : ServerEnv) : List EventRow → World → Bool × World
  | [], w => (true, w)
  | ev :: rest, w =>
    let r := syncEvent env ev w
    if r.1 = false then (false, r.2) else syncLoop env rest r.2

/-- Server.Sync: read one batch from the outbox and drain it. -/
def serverSync (env : ServerEnv) (w : World) : Bool × World :=
  if env.beginOk = false then (false, w)
  else syncLoop env (listEvents w.events) w

/-! ## The state and monitoring reconcilers (StateUpdate, MonitoringUpdate) -/

/-- An inbound watch event from the sync backend (gohan_sync.Event). -/
structure SyncEvent where
  action : String
  key : String
  data : List (String × GoVal)

/-- The database as seen by the reconcilers: which resources exist
(keyed by schema id and resource id) and their state records. -/
structure DBState where
  resources : List (String × String)
  states : List ((String × String) × StateRec)
deriving DecidableEq

/-- Look up a state record. -/
def lookupSR (k : String × String) :
    List ((String × String) × StateRec) → Option StateRec
  | [] => none
  | (k2, r) :: rest => if k2 = k then some r else lookupSR k rest

/-- Replace a state record in place (absent keys are left untouched). -/
def setSR (k : String × String) (v : StateRec) :
    List ((String × String) × StateRec) →
    List ((String × String) × StateRec)
  | [] => []
  | (k2, r) :: rest =>
    if k2 = k then (k2, v) :: setSR k v rest else (k2, r) :: setSR k v rest

/-- tx.StateFetch against the modelled database. -/
def stateGet (db : DBState) (k : String × String) : Option StateRec :=
  lookupSR k db.states

/-- tx.StateUpdate against the modelled database. -/
def stateSet (db : DBState) (k : String × String) (v : StateRec) : DBState :=
  { db with states := setSR k v db.states }

/-- Whether tx.Fetch of the resource row succeeds. -/
def resourcePresent (db : DBState) (sid rid : String) : Bool :=
  (db.resources.contains (sid, rid))

/-- Go strings.TrimPrefix: drop the prefix when present, else return the
string unchanged. -/
def goTrimPfx (s pre : String) : String :=
  if pre.isPrefixOf s then s.drop pre.length else s

/-- The reconcilers' collaborators: schema lookup by path, resource-id
extraction, and the success of each fallible external step (Begin,
SetIsolationLevel, keystone authorization, the extension hooks by
handler name, the state write, and Commit).  Extension environments are
looked up by schema id. -/
structure RecEnv where
  getSchemaByPath : String → Option SchemaT
  getResourceIDFromPath : String → String
  beginOk : Bool
  isolationOk : Bool
  authOk : Bool
  haveEnvFor : String → Bool
  hookOk : String → Bool
  stateUpdateOk : Bool
  commitOk : Bool

/-- Copy the payload's error string into the state record when present
as a string (StateUpdate lines 370 to 372). -/
def copyErr (data : List (String × GoVal)) (rs : StateRec) : StateRec :=
  match lookupKV "error" data with
  | some (.vstr e) => { rs with errMsg := e }
  | _ => rs

/-- Copy the payload's state string into the state record when present
as a string (StateUpdate lines 373 to 375). -/
def copyState (data : List (String × GoVal)) (rs : StateRec) : StateRec :=
  match lookupKV "state" data with
  | some (.vstr st) => { rs with state := st }
  | _ => rs

/-- Both copies, in source order. -/
def copyErrState (data : List (String × GoVal)) (rs : StateRec) : StateRec :=
  copyState data (copyErr data rs)

/-- The tail of StateUpdate: with an extension environment, fetch the
service authorization and run the pre hook, write the state record, run
the post hook, and commit; without one, just write and commit. -/
def commitStateRec (env : RecEnv) (sid : String) (k : String × String)
    (rs : StateRec) (db : DBState) : Option DBState :=
  if env.haveEnvFor sid then
    if env.authOk = false then none
    else if env.hookOk "pre_state_update_in_transaction" = false then none
    else if env.stateUpdateOk = false then none
    else if env.hookOk "post_state_update_in_transaction" = false then none
    else if env.commitOk then some (stateSet db k rs) else none
  else
    if env.stateUpdateOk = false then none
    else if env.commitOk then some (stateSet db k rs) else none

/-- StateUpdate: derive the schema from the key (skip silently if none
matches or it is not versioned); fetch the resource and its state
record; return early if state already equals config; require a numeric
version in the payload; drop reports older than the stored
state_version; copy the error and state strings when present; then
write through the hook-wrapped commit path. -/
def stateUpdate (env : RecEnv) (response : SyncEvent) (db : DBState) :
    Option DBState :=
  let schemaPath := "/" ++ goTrimPfx response.key statePfx
  match env.getSchemaByPath schemaPath with
  | none => some db
  | some curSchema =>
    if curSchema.stateVersioning = false then some db
    else
      let resourceID := env.getResourceIDFromPath schemaPath
      if env.beginOk = false then none
      else if env.isolationOk = false then none
      else if resourcePresent db curSchema.sid resourceID = false then none
      else
        match stateGet db (curSchema.sid, resourceID) with
        | none => none
        | some resourceState =>
          if resourceState.stateVersion = resourceState.configVersion then
            some db
          else
            match lookupKV "version" response.data with
            | some (.vfloat newV) =>
              if ({ resourceState with stateVersion := newV }).stateVersion <
                  resourceState.stateVersion then some db
              else
                commitStateRec env curSchema.sid (curSchema.sid, resourceID)
                  (copyErrState response.data
                    { resourceState with stateVersion := newV }) db
            | _ => none

/-- Run a sequence of inbound state reports; a failed report leaves the
database unchanged (the watch consumer logs the error and continues). -/
def stateUpdateSeq (env : RecEnv) : List SyncEvent → DBState → DBState
  | [], db => db
  | ev :: rest, db =>
    stateUpdateSeq env rest ((stateUpdate env ev db).getD db)

/-- The tail of MonitoringUpdate: the pre hook, the state write, the
post hook, and the commit (no service authorization here). -/
def commitMonRec (env : RecEnv) (sid : String) (k : String × String)
    (rs : StateRec) (db : DBState) : Option DBState :=
  if env.haveEnvFor sid then
    if env.hookOk "pre_monitoring_update_in_transaction" = false then none
    else if env.stateUpdateOk = false then none
    else if env.hookOk "post_monitoring_update_in_transaction" = false then none
    else if env.commitOk then some (stateSet db k rs) else none
  else
    if env.stateUpdateOk = false then none
    else if env.commitOk then some (stateSet db k rs) else none

/-- MonitoringUpdate: same schema derivation and versioning filter as
StateUpdate; skip unless the stored config_version equals the stored
state_version; require a numeric payload version equal to
config_version; require a string monitoring field; then copy it to the
state record through the hook-wrapped commit path. -/
def monitoringUpdate (env : RecEnv) (response : SyncEvent) (db : DBState) :
    Option DBState :=
  let schemaPath := "/" ++ goTrimPfx response.key monitoringPfx
  match env.getSchemaByPath schemaPath with
  | none => some db
  | some curSchema =>
    if curSchema.stateVersioning = false then some db
    else
      let resourceID := env.getResourceIDFromPath schemaPath
      if env.beginOk = false then none
      else if env.isolationOk = false then none
      else if resourcePresent db curSchema.sid resourceID = false then none
      else
        match stateGet db (curSchema.sid, resourceID) with
        | none => none
        | some resourceState =>
          if resourceState.configVersion ≠ resourceState.stateVersion then
            some db
          else
            match lookupKV "version" response.data with
            | some (.vfloat monitoringVersion) =>
              if resourceState.configVersion ≠ monitoringVersion then some db
              else
                match lookupKV "monitoring" response.data with
                | some (.vstr m) =>
                  commitMonRec env curSchema.sid
                    (curSchema.sid, resourceID)
                    { resourceState with monitoring := m } db
                | _ => none
            | _ => none

/-! ## Helper lemmas for the outbox writer -/

/-- Successful logEvent on a non-nosync schema appends exactly one event
row built from the resource's JSON, and leaves the wrapped database
state alone. -/
theorem logEvent_spec {σ : Type} (env : LoggerEnv σ) (eventType : String)
    (r : Resource) (version : Int) (s s' : LoggerState σ)
    (h : logEvent env eventType r version s = some s')
    (hns : r.schema.nosync = false) :
    ∃ b, r.jsonBody = some b ∧
      s'.events = s.events ++
        [{ etype := eventType, path := r.path, version := version,
           body := b, timestamp := env.now }] ∧
      s'.inner = s.inner := by
  unfold logEvent at h
  rw [hns] at h
  split at h
  · exact absurd h (by simp)
  · simp only [Bool.false_eq_true, if_false] at h
    cases hb : r.jsonBody with
    | none => rw [hb] at h; exact absurd h (by simp)
    | some b =>
      rw [hb] at h
      refine ⟨b, rfl, ?_, ?_⟩
      · cases h; rfl
      · cases h; rfl

/-- Successful logEvent on a nosync schema is the identity. -/
theorem logEvent_nosync {σ : Type} (env : LoggerEnv σ) (eventType : String)
    (r : Resource) (version : Int) (s s' : LoggerState σ)
    (h : logEvent env eventType r version s = some s')
    (hns : r.schema.nosync = true) :
    s' = s := by
  unfold logEvent at h
  rw [hns] at h
  split at h
  · exact absurd h (by simp)
  · simp only [if_true] at h
    cases h; rfl

/-- C1: for every mutation made through the transactionEventLogger on a
schema without nosync, the transaction gains exactly one event row, and
that row is the one predicted by the spec's capture rules: version 1
for create; 0 for update on a non-versioned schema; the state record's
config_version fetched after the mutation for update on a versioned
schema; 0 for delete on a non-versioned schema; config_version + 1
fetched before the deletion for delete on a versioned schema, with the
body being the resource's JSON as fetched before the delete. -/
theorem c1_outbox_version_capture {σ : Type} (env : LoggerEnv σ)
    (op : TLOp) (s s' : LoggerState σ)
    (hrun : runOp env op s = some s')
    (hns : opNosync env op s.inner = false) :
    ∃ e, specEvent env op s.inner = some e ∧
      s'.events = s.events ++ [e] := by
  cases op with
  | createOp r =>
    simp only [runOp, tlCreate] at hrun
    simp only [opNosync] at hns
    cases hc : env.tx.createRes r s.inner with
    | none => rw [hc] at hrun; exact absurd hrun (by simp)
    | some inner2 =>
      rw [hc] at hrun
      obtain ⟨b, hb, hev, _⟩ := logEvent_spec env "create" r 1 _ s' hrun hns
      exact ⟨_, by simp [specEvent, hb], hev⟩
  | updateOp r =>
    simp only [runOp, tlUpdate] at hrun
    simp only [opNosync] at hns
    cases hc : env.tx.updateRes r s.inner with
    | none => rw [hc] at hrun; exact absurd hrun (by simp)
    | some inner2 =>
      rw [hc] at hrun
      dsimp only at hrun
      by_cases hv : r.schema.stateVersioning = false
      · rw [if_pos hv] at hrun
        obtain ⟨b, hb, hev, _⟩ := logEvent_spec env "update" r 0 _ s' hrun hns
        exact ⟨_, by simp [specEvent, hv, hb], hev⟩
      · rw [if_neg hv] at hrun
        cases hsf : env.tx.stateFetch r.schema r.rid inner2 with
        | none => rw [hsf] at hrun; exact absurd hrun (by simp)
        | some st =>
          rw [hsf] at hrun
          obtain ⟨b, hb, hev, _⟩ :=
            logEvent_spec env "update" r st.configVersion _ s' hrun hns
          refine ⟨_, ?_, hev⟩
          simp [specEvent, hv, hc, hsf, hb]
  | deleteOp sch resourceID =>
    simp only [runOp, tlDelete] at hrun
    simp only [opNosync] at hns
    cases hf : env.tx.fetchRes sch resourceID s.inner with
    | none => rw [hf] at hrun; exact absurd hrun (by simp)
    | some r =>
      rw [hf] at hrun
      rw [hf] at hns
      dsimp only at hrun hns
      by_cases hv : r.schema.stateVersioning = true
      · rw [if_pos hv] at hrun
        cases hsf : env.tx.stateFetch sch resourceID s.inner with
        | none => rw [hsf] at hrun; exact absurd hrun (by simp)
        | some st =>
          rw [hsf] at hrun
          cases hd : env.tx.deleteRes sch resourceID s.inner with
          | none => rw [hd] at hrun; exact absurd hrun (by simp)
          | some inner2 =>
            rw [hd] at hrun
            obtain ⟨b, hb, hev, _⟩ :=
              logEvent_spec env "delete" r (st.configVersion + 1) _ s' hrun hns
            refine ⟨_, ?_, hev⟩
            simp [specEvent, hf, hv, hsf, hb]
      · rw [if_neg hv] at hrun
        cases hd : env.tx.deleteRes sch resourceID s.inner with
        | none => rw [hd] at hrun; exact absurd hrun (by simp)
        | some inner2 =>
          rw [hd] at hrun
          obtain ⟨b, hb, hev, _⟩ :=
            logEvent_spec env "delete" r 0 _ s' hrun hns
          refine ⟨_, ?_, hev⟩
          simp [specEvent, hf, hv, hb]

/-- A database fetch returns rows of the schema it was asked for. -/
def fetchCoherent {σ : Type} (env : LoggerEnv σ) : Prop :=
  ∀ sch rid s r, env.tx.fetchRes sch rid s = some r → r.schema = sch

/-- One nosync operation through the decorator performs the raw inner
mutation and leaves the event list and the eventLogged flag alone. -/
theorem runOp_nosync {σ : Type} (env : LoggerEnv σ) (op : TLOp)
    (s s' : LoggerState σ)
    (hfc : fetchCoherent env)
    (hns : (opSchema op).nosync = true)
    (hrun : runOp env op s = some s') :
    s'.events = s.events ∧ s'.eventLogged = s.eventLogged ∧
      runInnerOp env op s.inner = some s'.inner := by
  cases op with
  | createOp r =>
    simp only [runOp, tlCreate] at hrun
    simp only [opSchema] at hns
    cases hc : env.tx.createRes r s.inner with
    | none => rw [hc] at hrun; exact absurd hrun (by simp)
    | some inner2 =>
      rw [hc] at hrun
      have h := logEvent_nosync env "create" r 1 _ s' hrun hns
      subst h
      exact ⟨rfl, rfl, by simpa [runInnerOp] using hc⟩
  | updateOp r =>
    simp only [runOp, tlUpdate] at hrun
    simp only [opSchema] at hns
    cases hc : env.tx.updateRes r s.inner with
    | none => rw [hc] at hrun; exact absurd hrun (by simp)
    | some inner2 =>
      rw [hc] at hrun
      dsimp only at hrun
      by_cases hv : r.schema.stateVersioning = false
      · rw [if_pos hv] at hrun
        have h := logEvent_nosync env "update" r 0 _ s' hrun hns
        subst h
        exact ⟨rfl, rfl, by simpa [runInnerOp] using hc⟩
      · rw [if_neg hv] at hrun
        cases hsf : env.tx.stateFetch r.schema r.rid inner2 with
        | none => rw [hsf] at hrun; exact absurd hrun (by simp)
        | some st =>
          rw [hsf] at hrun
          have h := logEvent_nosync env "update" r st.configVersion _ s' hrun hns
          subst h
          exact ⟨rfl, rfl, by simpa [runInnerOp] using hc⟩
  | deleteOp sch resourceID =>
    simp only [runOp, tlDelete] at hrun
    simp only [opSchema] at hns
    cases hf : env.tx.fetchRes sch resourceID s.inner with
    | none => rw [hf] at hrun; exact absurd hrun (by simp)
    | some r =>
      rw [hf] at hrun
      dsimp only at hrun
      have hrs : r.schema = sch := hfc sch resourceID s.inner r hf
      by_cases hv : r.schema.stateVersioning = true
      · rw [if_pos hv] at hrun
        cases hsf : env.tx.stateFetch sch resourceID s.inner with
        | none => rw [hsf] at hrun; exact absurd hrun (by simp)
        | some st =>
          rw [hsf] at hrun
          cases hd : env.tx.deleteRes sch resourceID s.inner with
          | none => rw [hd] at hrun; exact absurd hrun (by simp)
          | some inner2 =>
            rw [hd] at hrun
            have h := logEvent_nosync env "delete" r (st.configVersion + 1)
              _ s' hrun (by rw [hrs]; exact hns)
            subst h
            exact ⟨rfl, rfl, by simpa [runInnerOp] using hd⟩
      · rw [if_neg hv] at hrun
        cases hd : env.tx.deleteRes sch resourceID s.inner with
        | none => rw [hd] at hrun; exact absurd hrun (by simp)
        | some inner2 =>
          rw [hd] at hrun
          have h := logEvent_nosync env "delete" r 0 _ s' hrun
            (by rw [hrs]; exact hns)
          subst h
          exact ⟨rfl, rfl, by simpa [runInnerOp] using hd⟩

/-- C8: a whole transaction made of operations on nosync schemas
performs every underlying mutation but appends no event row, however
many operations it performs (given that database fetches return rows of
the schema they were asked for). -/
theorem c8_nosync_no_event_rows {σ : Type} (env : LoggerEnv σ)
    (ops : List TLOp) (s s' : LoggerState σ)
    (hfc : fetchCoherent env)
    (hns : ∀ op ∈ ops, (opSchema op).nosync = true)
    (hrun : runOps env ops s = some s') :
    s'.events = s.events ∧ s'.eventLogged = s.eventLogged ∧
      runInnerOps env ops s.inner = some s'.inner := by
  induction ops generalizing s with
  | nil =>
    simp only [runOps] at hrun
    cases hrun
    exact ⟨rfl, rfl, rfl⟩
  | cons op rest ih =>
    simp only [runOps] at hrun
    cases hr : runOp env op s with
    | none => rw [hr] at hrun; exact absurd hrun (by simp)
    | some s2 =>
      rw [hr] at hrun
      obtain ⟨he1, hl1, hi1⟩ := runOp_nosync env op s s2 hfc
        (hns op (List.mem_cons_self op rest)) hr
      obtain ⟨he2, hl2, hi2⟩ := ih s2
        (fun op2 hm => hns op2 (List.mem_cons_of_mem op hm)) hrun
      refine ⟨he2.trans he1, hl2.trans hl1, ?_⟩
      simp only [runInnerOps, hi1]
      exact hi2

/-- C9: transactionEventLogger.Commit posts to the single-slot commit
notifier exactly when an event was logged and the inner commit
succeeded; the post is non-blocking, a full slot discards the signal,
and Commit succeeds regardless of the slot; a failed inner commit
yields an error and no post. -/
theorem c9_commit_notifier {σ : Type} (env : LoggerEnv σ) :
    (∀ (s : LoggerState σ) (slot : Option Nat) (inner2 : σ),
      env.tx.commitTx s.inner = some inner2 →
      tlCommit env s slot =
        some (inner2, if s.eventLogged then nbPost slot else slot)) ∧
    (∀ (s : LoggerState σ) (slot : Option Nat),
      env.tx.commitTx s.inner = none → tlCommit env s slot = none) ∧
    (∀ k, nbPost (some k) = some k) ∧ nbPost none = some 1 := by
  refine ⟨?_, ?_, fun k => rfl, rfl⟩
  · intro s slot inner2 hc
    unfold tlCommit
    rw [hc]
    cases hl : s.eventLogged with
    | false => simp [hl]
    | true => simp [hl]
  · intro s slot hc
    unfold tlCommit
    rw [hc]

/-! ## Concrete instances for the outbox-writer theorems -/

/-- A one-slot concrete database used to instantiate the abstract inner
transaction in witnesses. -/
structure MiniDB where
  res : Option Resource
  st : Option StateRec
deriving DecidableEq

/-- A concrete inner transaction over MiniDB: create and update fill the
slot, delete empties it, fetch checks the schema, state fetch reads the
state slot, commit always succeeds. -/
def miniTx : InnerTx MiniDB where
  createRes := fun r s => some { s with res := some r }
  updateRes := fun r s => some { s with res := some r }
  deleteRes := fun _ _ s => some { s with res := none }
  fetchRes := fun sch _ s =>
    match s.res with
    | none => none
    | some r => if r.schema = sch then some r else none
  stateFetch := fun _ _ s => s.st
  commitTx := fun s => some s

/-- Concrete logger environment over MiniDB. -/
def miniEnv : LoggerEnv MiniDB :=
  { eventSchemaFound := true, now := 100, tx := miniTx }

/-- The concrete fetch respects the requested schema. -/
theorem miniEnv_coherent : fetchCoherent miniEnv := by
  intro sch rid s r h
  simp only [miniEnv, miniTx] at h
  cases hr : s.res with
  | none => rw [hr] at h; exact absurd h (by simp)
  | some r2 =>
    rw [hr] at h
    dsimp only at h
    split at h
    · cases h
      assumption
    · exact absurd h (by simp)

/-- A versioned, syncing schema used by witnesses. -/
def wSchemaV : SchemaT :=
  { sid := "nets", stateVersioning := true, nosync := false,
    syncKeyTemplate := none }

/-- A non-versioned nosync schema used by witnesses. -/
def wSchemaN : SchemaT :=
  { sid := "quiet", stateVersioning := false, nosync := true,
    syncKeyTemplate := none }

/-- A resource of the versioned schema. -/
def wResV : Resource :=
  { rid := "a", path := "/v1.0/nets/a", schema := wSchemaV,
    jsonBody := some "netbody" }

/-- A resource of the nosync schema. -/
def wResN : Resource :=
  { rid := "q", path := "/v1.0/quiet/q", schema := wSchemaN,
    jsonBody := some "quietbody" }

/-- A state record at config version 5. -/
def wRec5 : StateRec :=
  { configVersion := 5, stateVersion := 2, state := "", errMsg := "",
    monitoring := "" }

/-- Initial logger state for the witnesses. -/
def wS0 : LoggerState MiniDB :=
  { inner := { res := some wResV, st := some wRec5 }, events := [],
    eventLogged := false }

/-- Witness for C1: a concrete versioned update captures the
config_version fetched after the mutation. -/
theorem c1_outbox_version_capture_witness :
    ∃ e, specEvent miniEnv (TLOp.updateOp wResV) wS0.inner = some e ∧
      ((runOp miniEnv (TLOp.updateOp wResV) wS0).getD wS0).events =
        wS0.events ++ [e] :=
  c1_outbox_version_capture miniEnv (TLOp.updateOp wResV) wS0
    ((runOp miniEnv (TLOp.updateOp wResV) wS0).getD wS0) rfl rfl

/-- Witness for C8: a concrete create-update-delete run on a nosync
schema mutates the inner database and appends no event. -/
theorem c8_nosync_no_event_rows_witness :
    (((runOps miniEnv [TLOp.createOp wResN, TLOp.updateOp wResN,
        TLOp.deleteOp wSchemaN "q"] wS0).getD wS0).events = wS0.events) ∧
    (((runOps miniEnv [TLOp.createOp wResN, TLOp.updateOp wResN,
        TLOp.deleteOp wSchemaN "q"] wS0).getD wS0).eventLogged =
      wS0.eventLogged) ∧
    runInnerOps miniEnv [TLOp.createOp wResN, TLOp.updateOp wResN,
        TLOp.deleteOp wSchemaN "q"] wS0.inner =
      some ((runOps miniEnv [TLOp.createOp wResN, TLOp.updateOp wResN,
        TLOp.deleteOp wSchemaN "q"] wS0).getD wS0).inner :=
  c8_nosync_no_event_rows miniEnv
    [TLOp.createOp wResN, TLOp.updateOp wResN, TLOp.deleteOp wSchemaN "q"]
    wS0 _ miniEnv_coherent (by decide) rfl

/-- Witness for C9: a concrete commit of an event-carrying transaction
with a full slot discards the signal and still succeeds. -/
theorem c9_commit_notifier_witness :
    tlCommit miniEnv { wS0 with eventLogged := true } (some 1) =
      some (wS0.inner, some 1) := by
  have h := (c9_commit_notifier miniEnv).1 { wS0 with eventLogged := true }
    (some 1) wS0.inner rfl
  simpa using h

/-! ## Helper lemmas for the sync pump -/

/-- A backend PUT succeeds exactly when the environment accepts it, and
records exactly one call. -/
theorem kvUpdate_spec (env : ServerEnv) (k : String) (v : ContentDoc)
    (kv : SyncKV) :
    (kvUpdate env k v kv).1 = env.syncUpdateOk k v ∧
      (kvUpdate env k v kv).2.ops = kv.ops ++ [SyncOp.put k v] := by
  unfold kvUpdate
  by_cases h : env.syncUpdateOk k v = true <;> simp [h]

/-- A backend DELETE succeeds exactly when the environment accepts it,
and records exactly one call. -/
theorem kvDelete_spec (env : ServerEnv) (k : String) (kv : SyncKV) :
    (kvDelete env k kv).1 = env.syncDeleteOk k ∧
      (kvDelete env k kv).2.ops = kv.ops ++ [SyncOp.del k] := by
  unfold kvDelete
  by_cases h : env.syncDeleteOk k = true <;> simp [h]

/-- The three deletes of a delete event: the outcome is that of the
third delete alone, and exactly three calls are recorded in order. -/
theorem deleteThree_spec (env : ServerEnv) (dp configKey : String)
    (kv : SyncKV) :
    (deleteThree env dp configKey kv).1 = env.syncDeleteOk configKey ∧
      (deleteThree env dp configKey kv).2.ops = kv.ops ++
        [SyncOp.del (statePfx ++ dp), SyncOp.del (monitoringPfx ++ dp),
         SyncOp.del configKey] := by
  unfold deleteThree
  obtain ⟨h1a, h1b⟩ := kvDelete_spec env (statePfx ++ dp) kv
  obtain ⟨h2a, h2b⟩ :=
    kvDelete_spec env (monitoringPfx ++ dp) (kvDelete env (statePfx ++ dp) kv).2
  obtain ⟨h3a, h3b⟩ := kvDelete_spec env configKey
    (kvDelete env (monitoringPfx ++ dp) (kvDelete env (statePfx ++ dp) kv).2).2
  refine ⟨h3a, ?_⟩
  rw [h3b, h2b, h1b]
  simp

/-- The backend phase of syncEvent succeeds exactly when
backendApplyOk says so, and records exactly the calls opsOfEvent
predicts. -/
theorem applyToBackend_spec (env : ServerEnv) (ev : EventRow) (kv : SyncKV) :
    (applyToBackend env ev kv).1 = backendApplyOk env ev ∧
      (applyToBackend env ev kv).2.ops = kv.ops ++ opsOfEvent env ev := by
  unfold applyToBackend backendApplyOk opsOfEvent
  by_cases h1 : ev.etype = "create" ∨ ev.etype = "update"
  · rw [if_pos h1, if_pos h1, if_pos h1]
    exact kvUpdate_spec env _ _ kv
  · rw [if_neg h1, if_neg h1, if_neg h1]
    by_cases h2 : ev.etype = "delete"
    · rw [if_pos h2, if_pos h2, if_pos h2]
      cases hdp : deletePathOf env ev with
      | none => simp
      | some dp =>
        exact deleteThree_spec env dp (generatePath env ev.path ev.body) kv
    · rw [if_neg h2, if_neg h2, if_neg h2]
      simp

/-- Characterisation of syncEvent under an available database: the event
succeeds exactly when the backend side effect, the row delete and the
commit all succeed; the backend trace grows by exactly the event's
calls; on success its row (and only rows with its id) leaves the
outbox, on failure the outbox is untouched. -/
theorem syncEvent_char (env : ServerEnv) (ev : EventRow) (w : World)
    (ok : Bool) (w' : World)
    (hb : env.beginOk = true)
    (h : syncEvent env ev w = (ok, w')) :
    ok = (backendApplyOk env ev &&
      (env.dbDeleteOk ev.eid && env.commitOk ev.eid)) ∧
    w'.kv.ops = w.kv.ops ++ opsOfEvent env ev ∧
    (ok = true → w'.events = w.events.filter (fun e => e.eid != ev.eid)) ∧
    (ok = false → w'.events = w.events) := by
  unfold syncEvent at h
  rw [hb] at h
  simp only [Bool.true_eq_false, if_false] at h
  obtain ⟨ha1, ha2⟩ := applyToBackend_spec env ev w.kv
  unfold finishRow at h
  rw [ha1] at h
  by_cases hap : backendApplyOk env ev = true
  · rw [if_pos hap] at h
    by_cases hdc : (env.dbDeleteOk ev.eid && env.commitOk ev.eid) = true
    · rw [if_pos hdc] at h
      cases h
      refine ⟨by simp [hap, hdc], ha2, fun _ => rfl, fun hff => by simp at hff⟩
    · rw [if_neg hdc] at h
      cases h
      refine ⟨?_, ha2, fun hff => by simp at hff, fun _ => rfl⟩
      rw [hap]
      simp only [Bool.true_and]
      exact (Bool.not_eq_true _).mp hdc |>.symm
  · rw [if_neg hap] at h
    cases h
    refine ⟨?_, ha2, fun hff => by simp at hff, fun _ => rfl⟩
    rw [Bool.not_eq_true] at hap
    rw [hap]
    simp

/-- An id never survives the filter that removes it. -/
theorem eid_not_mem_filter (l : List EventRow) (i : Int) :
    i ∉ (l.filter (fun e => e.eid != i)).map EventRow.eid := by
  intro hmem
  simp only [List.mem_map, List.mem_filter, bne_iff_ne] at hmem
  obtain ⟨e, ⟨_, hne⟩, heq⟩ := hmem
  exact hne heq

/-- C3: an event's outbox row is removed (and the removing transaction
committed) only when the sync-backend side effect succeeded; when the
backend write or delete fails, syncEvent fails and the outbox — the
row included — is untouched. -/
theorem c3_row_deleted_only_after_apply (env : ServerEnv) (ev : EventRow)
    (w : World) (ok : Bool) (w' : World)
    (h : syncEvent env ev w = (ok, w')) :
    (ok = true → backendApplyOk env ev = true ∧
      ev.eid ∉ w'.events.map EventRow.eid) ∧
    (backendApplyOk env ev = false → ok = false) ∧
    (ok = false → w'.events = w.events) := by
  by_cases hb : env.beginOk = true
  · obtain ⟨h1, _, h3, h4⟩ := syncEvent_char env ev w ok w' hb h
    refine ⟨?_, ?_, h4⟩
    · intro hok
      rw [hok] at h1
      have hap : backendApplyOk env ev = true := by
        cases hx : backendApplyOk env ev with
        | true => rfl
        | false => rw [hx] at h1; simp at h1
      refine ⟨hap, ?_⟩
      rw [h3 hok]
      exact eid_not_mem_filter w.events ev.eid
    · intro hap
      rw [hap] at h1
      simpa using h1
  · unfold syncEvent at h
    rw [Bool.not_eq_true] at hb
    rw [hb] at h
    simp only [if_true] at h
    cases h
    exact ⟨fun hok => by simp at hok, fun _ => rfl, fun _ => rfl⟩

/-- C10: for a create or update event whose stored version attribute is
not dynamically a Go int, syncEvent performs the PUT with version 0 and
does not fail for that reason (it succeeds whenever the backend PUT,
the row delete and the commit succeed). -/
theorem c10_version_assertion_defaults_zero (env : ServerEnv)
    (ev : EventRow) (w : World)
    (ht : ev.etype = "create" ∨ ev.etype = "update")
    (hv : asGoInt ev.version = none)
    (hb : env.beginOk = true) :
    (syncEvent env ev w).2.kv.ops = w.kv.ops ++
      [SyncOp.put (generatePath env ev.path ev.body)
        { body := ev.body, version := 0 }] ∧
    (env.syncUpdateOk (generatePath env ev.path ev.body)
        { body := ev.body, version := 0 } = true →
      env.dbDeleteOk ev.eid = true → env.commitOk ev.eid = true →
      (syncEvent env ev w).1 = true) := by
  obtain ⟨h1, h2, _, _⟩ := syncEvent_char env ev w
    (syncEvent env ev w).1 (syncEvent env ev w).2 hb rfl
  have hops : opsOfEvent env ev =
      [SyncOp.put (generatePath env ev.path ev.body)
        { body := ev.body, version := 0 }] := by
    unfold opsOfEvent
    rw [if_pos ht, hv]
    rfl
  have hback : backendApplyOk env ev =
      env.syncUpdateOk (generatePath env ev.path ev.body)
        { body := ev.body, version := 0 } := by
    unfold backendApplyOk
    rw [if_pos ht, hv]
    rfl
  refine ⟨by rw [h2, hops], ?_⟩
  intro hu hd hc
  rw [h1, hback, hu, hd, hc]
  rfl

/-- C6 (amended): a delete event whose delete path resolves (the schema
has no sync_key_template, or rendering succeeds) issues exactly three
backend deletes in order — state-prefixed, monitoring-prefixed, then
the rendered config key; the event's outcome ignores the first two
results and follows the third (then the row delete and commit); a
failing third delete leaves the outbox untouched. -/
theorem c6_delete_three_in_order (env : ServerEnv) (ev : EventRow)
    (w : World) (dp : String)
    (ht : ev.etype = "delete")
    (hb : env.beginOk = true)
    (hdp : deletePathOf env ev = some dp) :
    (syncEvent env ev w).2.kv.ops = w.kv.ops ++
      [SyncOp.del (statePfx ++ dp), SyncOp.del (monitoringPfx ++ dp),
       SyncOp.del (generatePath env ev.path ev.body)] ∧
    (syncEvent env ev w).1 =
      (env.syncDeleteOk (generatePath env ev.path ev.body) &&
        (env.dbDeleteOk ev.eid && env.commitOk ev.eid)) ∧
    (env.syncDeleteOk (generatePath env ev.path ev.body) = false →
      (syncEvent env ev w).2.events = w.events) := by
  have hcu : ¬(ev.etype = "create" ∨ ev.etype = "update") := by
    rw [ht]; decide
  obtain ⟨h1, h2, _, h4⟩ := syncEvent_char env ev w
    (syncEvent env ev w).1 (syncEvent env ev w).2 hb rfl
  have hops : opsOfEvent env ev =
      [SyncOp.del (statePfx ++ dp), SyncOp.del (monitoringPfx ++ dp),
       SyncOp.del (generatePath env ev.path ev.body)] := by
    unfold opsOfEvent
    rw [if_neg hcu, if_pos ht, hdp]
  have hback : backendApplyOk env ev =
      env.syncDeleteOk (generatePath env ev.path ev.body) := by
    unfold backendApplyOk
    rw [if_neg hcu, if_pos ht, hdp]
  refine ⟨by rw [h2, hops], by rw [h1, hback], ?_⟩
  intro hthird
  refine h4 ?_
  rw [h1, hback, hthird]
  rfl

/-- C7 (amended): when the schema declares a sync_key_template and
rendering the decoded body fails, generatePath falls back to the raw
URL path (under the config namespace) — this is the key used by create
and update events and by the third delete — but a delete event aborts
with an error before issuing any backend call, leaving the world
untouched, instead of falling back. -/
theorem c7_render_failure_fallback (env : ServerEnv) (ev : EventRow)
    (w : World) (data : List (String × GoVal)) (tmpl : List Seg)
    (htm : (env.schemaByURLPath ev.path).syncKeyTemplate = some tmpl)
    (hjd : env.jsonUnmarshal ev.body = some data)
    (hrf : renderSegs data tmpl = none) :
    generatePath env ev.path ev.body = configPfx ++ ev.path ∧
    (ev.etype = "delete" → env.beginOk = true →
      syncEvent env ev w = (false, w)) := by
  constructor
  · simp only [generatePath, htm, hjd, hrf]
  · intro ht hb
    have hdp : deletePathOf env ev = none := by
      simp only [deletePathOf, htm, hjd, Option.getD_some]
      exact hrf
    have happ : applyToBackend env ev w.kv = (false, w.kv) := by
      simp [applyToBackend, ht, hdp]
    unfold syncEvent
    rw [hb]
    simp only [Bool.true_eq_false, if_false, happ]
    unfold finishRow
    simp

/-! ## Concrete instances for the pump theorems -/

/-- A template-free versioned schema for pump witnesses. -/
def pSchema : SchemaT :=
  { sid := "nets", stateVersioning := true, nosync := false,
    syncKeyTemplate := none }

/-- An all-accepting pump environment over the template-free schema. -/
def pEnv : ServerEnv :=
  { schemaByURLPath := fun _ => pSchema
    jsonUnmarshal := fun _ => none
    syncUpdateOk := fun _ _ => true
    syncDeleteOk := fun _ => true
    dbDeleteOk := fun _ => true
    commitOk := fun _ => true
    beginOk := true }

/-- A concrete create event. -/
def pEv1 : EventRow :=
  { eid := 1, etype := "create", path := "/v1.0/nets/a",
    version := GoVal.vint 1, body := "b1" }

/-- A concrete update event whose version is stored as an int64, so the
int type assertion fails. -/
def pEv64 : EventRow :=
  { eid := 2, etype := "update", path := "/v1.0/nets/a",
    version := GoVal.vint64 7, body := "b2" }

/-- A concrete delete event on the template-free schema. -/
def pEvDel : EventRow :=
  { eid := 4, etype := "delete", path := "/v1.0/nets/a",
    version := GoVal.vint 4, body := "b4" }

/-- A concrete world holding the create event. -/
def pW : World := { events := [pEv1], kv := { entries := [], ops := [] } }

/-- Witness for C3 at a concrete create event. -/
theorem c3_row_deleted_only_after_apply_witness :
    ((syncEvent pEnv pEv1 pW).1 = true → backendApplyOk pEnv pEv1 = true ∧
      pEv1.eid ∉ (syncEvent pEnv pEv1 pW).2.events.map EventRow.eid) ∧
    (backendApplyOk pEnv pEv1 = false → (syncEvent pEnv pEv1 pW).1 = false) ∧
    ((syncEvent pEnv pEv1 pW).1 = false →
      (syncEvent pEnv pEv1 pW).2.events = pW.events) :=
  c3_row_deleted_only_after_apply pEnv pEv1 pW _ _ rfl

/-- Witness for C10 at a concrete int64-versioned update event. -/
theorem c10_version_assertion_defaults_zero_witness :
    (syncEvent pEnv pEv64 pW).2.kv.ops = pW.kv.ops ++
      [SyncOp.put (generatePath pEnv pEv64.path pEv64.body)
        { body := pEv64.body, version := 0 }] ∧
    (pEnv.syncUpdateOk (generatePath pEnv pEv64.path pEv64.body)
        { body := pEv64.body, version := 0 } = true →
      pEnv.dbDeleteOk pEv64.eid = true → pEnv.commitOk pEv64.eid = true →
      (syncEvent pEnv pEv64 pW).1 = true) :=
  c10_version_assertion_defaults_zero pEnv pEv64 pW (Or.inr rfl) rfl rfl

/-- Witness for C6 (amended) at a concrete delete event. -/
theorem c6_delete_three_in_order_witness :
    (syncEvent pEnv pEvDel pW).2.kv.ops = pW.kv.ops ++
      [SyncOp.del (statePfx ++ "/v1.0/nets/a"),
       SyncOp.del (monitoringPfx ++ "/v1.0/nets/a"),
       SyncOp.del (generatePath pEnv pEvDel.path pEvDel.body)] ∧
    (syncEvent pEnv pEvDel pW).1 =
      (pEnv.syncDeleteOk (generatePath pEnv pEvDel.path pEvDel.body) &&
        (pEnv.dbDeleteOk pEvDel.eid && pEnv.commitOk pEvDel.eid)) ∧
    (pEnv.syncDeleteOk (generatePath pEnv pEvDel.path pEvDel.body) = false →
      (syncEvent pEnv pEvDel pW).2.events = pW.events) :=
  c6_delete_three_in_order pEnv pEvDel pW "/v1.0/nets/a" rfl rfl rfl

/-- A schema whose sync_key_template references a field name. -/
def c6Schema : SchemaT :=
  { sid := "tnets", stateVersioning := true, nosync := false,
    syncKeyTemplate := some [Seg.lit "/tnets/", Seg.hole "name"] }

/-- Environment in which decoding the body yields a map without the
templated field, so rendering fails. -/
def c6Env : ServerEnv :=
  { schemaByURLPath := fun _ => c6Schema
    jsonUnmarshal := fun b =>
      if b = "nameless" then some [("other", GoVal.vstr "x")] else none
    syncUpdateOk := fun _ _ => true
    syncDeleteOk := fun _ => true
    dbDeleteOk := fun _ => true
    commitOk := fun _ => true
    beginOk := true }

/-- A delete event whose body lacks the templated field. -/
def c6Ev : EventRow :=
  { eid := 3, etype := "delete", path := "/v1.0/tnets/a",
    version := GoVal.vint 4, body := "nameless" }

/-- World holding only the failing delete event. -/
def c6W : World := { events := [c6Ev], kv := { entries := [], ops := [] } }

/-- Counterexample to C6 as stated: a delete event whose key rendering
fails issues zero backend deletes (not three) — syncEvent errors out
with no backend call recorded and the row still in the outbox. -/
theorem c6_counterexample :
    (syncEvent c6Env c6Ev c6W).1 = false ∧
    (syncEvent c6Env c6Ev c6W).2.kv.ops = [] ∧
    (syncEvent c6Env c6Ev c6W).2.events = [c6Ev] :=
  ⟨rfl, rfl, rfl⟩

/-- A second templated schema for the C7 counterexample. -/
def c7Schema : SchemaT :=
  { sid := "vnets", stateVersioning := true, nosync := false,
    syncKeyTemplate := some [Seg.lit "/vnets/", Seg.hole "id"] }

/-- Environment in which the body decodes but the templated field is
malformed (null), so rendering fails. -/
def c7Env : ServerEnv :=
  { schemaByURLPath := fun _ => c7Schema
    jsonUnmarshal := fun b =>
      if b = "badfields" then some [("id", GoVal.vnull)] else none
    syncUpdateOk := fun _ _ => true
    syncDeleteOk := fun _ => true
    dbDeleteOk := fun _ => true
    commitOk := fun _ => true
    beginOk := true }

/-- A delete event whose templated field is malformed. -/
def c7Ev : EventRow :=
  { eid := 5, etype := "delete", path := "/v1.0/vnets/b",
    version := GoVal.vint 2, body := "badfields" }

/-- World holding only that delete event. -/
def c7W : World := { events := [c7Ev], kv := { entries := [], ops := [] } }

/-- Counterexample to C7 as stated: for a delete event, a rendering
failure does not fall back to the raw URL path — syncEvent returns an
error having issued no backend call at all (every backend delete here
would have succeeded, so a fallback would have been visible). -/
theorem c7_counterexample :
    (syncEvent c7Env c7Ev c7W).1 = false ∧
    (syncEvent c7Env c7Ev c7W).2.kv.ops = [] :=
  ⟨rfl, rfl⟩

/-- Witness for C7 (amended) at the concrete malformed-field input. -/
theorem c7_render_failure_fallback_witness :
    generatePath c7Env c7Ev.path c7Ev.body = configPfx ++ c7Ev.path ∧
    (c7Ev.etype = "delete" → c7Env.beginOk = true →
      syncEvent c7Env c7Ev c7W = (false, c7W)) :=
  c7_render_failure_fallback c7Env c7Ev c7W [("id", GoVal.vnull)]
    [Seg.lit "/vnets/", Seg.hole "id"] rfl rfl rfl

/-! ## Sorting lemmas for listEvents -/

/-- Membership through insertion. -/
theorem mem_insertById (e a : EventRow) (l : List EventRow) :
    a ∈ insertById e l ↔ a = e ∨ a ∈ l := by
  induction l with
  | nil => simp [insertById]
  | cons x xs ih =>
    unfold insertById
    by_cases h : e.eid ≤ x.eid
    · rw [if_pos h]
      simp [or_comm, or_assoc, or_left_comm]
    · rw [if_neg h]
      simp only [List.mem_cons, ih]
      tauto

/-- Insertion is a permutation of consing. -/
theorem perm_insertById (e : EventRow) (l : List EventRow) :
    List.Perm (insertById e l) (e :: l) := by
  induction l with
  | nil => exact List.Perm.refl _
  | cons x xs ih =>
    unfold insertById
    by_cases h : e.eid ≤ x.eid
    · rw [if_pos h]
    · rw [if_neg h]
      exact List.Perm.trans (ih.cons x) (List.Perm.swap e x xs)

/-- Sorting is a permutation. -/
theorem perm_sortById (l : List EventRow) : List.Perm (sortById l) l := by
  induction l with
  | nil => exact List.Perm.refl _
  | cons x xs ih =>
    exact List.Perm.trans (perm_insertById x (sortById xs)) (ih.cons x)

/-- Insertion preserves ascending-id ordering. -/
theorem idSorted_insertById (e : EventRow) (l : List EventRow)
    (h : idSorted l) : idSorted (insertById e l) := by
  induction l with
  | nil => simp [insertById, idSorted]
  | cons x xs ih =>
    unfold insertById
    rw [idSorted, List.pairwise_cons] at h
    obtain ⟨hx, hxs⟩ := h
    by_cases hle : e.eid ≤ x.eid
    · rw [if_pos hle]
      rw [idSorted, List.pairwise_cons]
      refine ⟨?_, ?_⟩
      · intro b hb
        rcases List.mem_cons.mp hb with hbx | hbxs
        · rw [hbx]; exact hle
        · exact le_trans hle (hx b hbxs)
      · rw [List.pairwise_cons]
        exact ⟨hx, hxs⟩
    · rw [if_neg hle]
      rw [idSorted, List.pairwise_cons]
      refine ⟨?_, ih hxs⟩
      intro b hb
      rcases (mem_insertById e b xs).mp hb with hbe | hbxs
      · rw [hbe]
        exact le_of_lt (lt_of_not_le hle)
      · exact hx b hbxs

/-- The sorted batch really is ascending by id. -/
theorem idSorted_sortById (l : List EventRow) : idSorted (sortById l) := by
  induction l with
  | nil => simp [sortById, idSorted]
  | cons x xs ih => exact idSorted_insertById x (sortById xs) ih

/-- Every row of the batch comes from the outbox. -/
theorem mem_listEvents (l : List EventRow) (a : EventRow)
    (h : a ∈ listEvents l) : a ∈ l :=
  (perm_sortById l).mem_iff.mp (List.take_subset eventPollingLimit _ h)

/-- The batch is at most the polling limit long. -/
theorem listEvents_length_le (l : List EventRow) :
    (listEvents l).length ≤ eventPollingLimit := by
  unfold listEvents
  exact (List.length_take _ _).le.trans (min_le_left _ _)

/-- The batch is ascending by id. -/
theorem listEvents_sorted (l : List EventRow) : idSorted (listEvents l) :=
  List.Pairwise.sublist (List.take_sublist _ _) (idSorted_sortById l)

/-- Distinct outbox ids stay distinct in the batch. -/
theorem listEvents_nodup_ids (l : List EventRow)
    (h : (l.map EventRow.eid).Nodup) :
    ((listEvents l).map EventRow.eid).Nodup := by
  have hperm : List.Perm ((sortById l).map EventRow.eid) (l.map EventRow.eid) :=
    (perm_sortById l).map EventRow.eid
  have hs : ((sortById l).map EventRow.eid).Nodup := hperm.nodup_iff.mpr h
  exact List.Nodup.sublist ((List.take_sublist _ _).map EventRow.eid) hs

/-! ## The pump drain (Server.Sync) -/

/-- Decomposition of the per-event loop: any run splits the batch into a
successfully processed prefix and an untouched suffix; the processed
prefix's rows (identified by id) leave the outbox, its backend calls
are appended in batch order, and either the whole batch succeeded or
the run stopped at the first failing event, whose failure left the
outbox as the prefix had left it. -/
theorem syncLoop_decomp (env : ServerEnv) (hb : env.beginOk = true) :
    ∀ (batch : List EventRow) (w : World) (ok : Bool) (w' : World),
      syncLoop env batch w = (ok, w') →
      ∃ p q wmid, batch = p ++ q ∧ syncLoop env p w = (true, wmid) ∧
        (∀ e, e ∈ wmid.events ↔ e ∈ w.events ∧ e.eid ∉ p.map EventRow.eid) ∧
        wmid.kv.ops = w.kv.ops ++ p.flatMap (opsOfEvent env) ∧
        ((q = [] ∧ ok = true ∧ w' = wmid) ∨
         (ok = false ∧ ∃ ev qs, q = ev :: qs ∧
           syncEvent env ev wmid = (false, w') ∧ w'.events = wmid.events)) := by
  intro batch
  induction batch with
  | nil =>
    intro w ok w' h
    simp only [syncLoop, Prod.mk.injEq] at h
    obtain ⟨hok, hw⟩ := h
    subst hok
    subst hw
    exact ⟨[], [], w, rfl, rfl, by simp, by simp, Or.inl ⟨rfl, rfl, rfl⟩⟩
  | cons ev rest ih =>
    intro w ok w' h
    simp only [syncLoop] at h
    rcases hse : syncEvent env ev w with ⟨b, w1⟩
    rw [hse] at h
    obtain ⟨hc1, hc2, hc3, hc4⟩ := syncEvent_char env ev w b w1 hb hse
    cases b with
    | false =>
      simp only [if_true] at h
      cases h
      refine ⟨[], ev :: rest, w, rfl, rfl, by simp, by simp, ?_⟩
      exact Or.inr ⟨rfl, ev, rest, rfl, hse, hc4 rfl⟩
    | true =>
      simp only [Bool.true_eq_false, if_false] at h
      obtain ⟨p', q', wmid, hsplit, hloop, hmem, hops, hdisj⟩ := ih w1 ok w' h
      refine ⟨ev :: p', q', wmid, by simp [hsplit], ?_, ?_, ?_, hdisj⟩
      · simp only [syncLoop, hse, Bool.true_eq_false, if_false]
        exact hloop
      · intro e
        rw [hmem e, hc3 rfl, List.mem_filter]
        simp only [List.map_cons, List.mem_cons, bne_iff_ne, ne_eq]
        tauto
      · rw [hops, hc2]
        simp [List.append_assoc]

/-- C4: a single pump drain reads a batch of at most 10,000 event rows
ordered ascending by id, applies them to the sync backend in that
order, and stops at the first per-event error, leaving that event and
all later ones in the outbox (outbox ids assumed distinct, the database
being available). -/
theorem c4_pump_drain (env : ServerEnv) (w : World) (ok : Bool) (w' : World)
    (hnd : (w.events.map EventRow.eid).Nodup)
    (hb : env.beginOk = true)
    (h : serverSync env w = (ok, w')) :
    (listEvents w.events).length ≤ eventPollingLimit ∧
    idSorted (listEvents w.events) ∧
    ∃ p q wmid, listEvents w.events = p ++ q ∧
      syncLoop env p w = (true, wmid) ∧
      (∀ e, e ∈ wmid.events ↔ e ∈ w.events ∧ e.eid ∉ p.map EventRow.eid) ∧
      wmid.kv.ops = w.kv.ops ++ p.flatMap (opsOfEvent env) ∧
      (∀ e, e ∈ q → e ∈ w'.events) ∧
      ((q = [] ∧ ok = true ∧ w' = wmid) ∨
       (ok = false ∧ ∃ ev qs, q = ev :: qs ∧
         syncEvent env ev wmid = (false, w') ∧ w'.events = wmid.events)) := by
  unfold serverSync at h
  rw [hb] at h
  simp only [Bool.true_eq_false, if_false] at h
  obtain ⟨p, q, wmid, hsplit, hloop, hmem, hops, hdisj⟩ :=
    syncLoop_decomp env hb (listEvents w.events) w ok w' h
  refine ⟨listEvents_length_le w.events, listEvents_sorted w.events,
    p, q, wmid, hsplit, hloop, hmem, hops, ?_, hdisj⟩
  intro e he
  have hebatch : e ∈ listEvents w.events := by
    rw [hsplit]; exact List.mem_append_right p he
  have hew : e ∈ w.events := mem_listEvents w.events e hebatch
  have hnb : ((listEvents w.events).map EventRow.eid).Nodup :=
    listEvents_nodup_ids w.events hnd
  rw [hsplit, List.map_append, List.nodup_append] at hnb
  have heq : e.eid ∈ q.map EventRow.eid := List.mem_map_of_mem EventRow.eid he
  have hnp : e.eid ∉ p.map EventRow.eid := fun hp => hnb.2.2 hp heq
  have hemid : e ∈ wmid.events := (hmem e).mpr ⟨hew, hnp⟩
  rcases hdisj with ⟨_, _, hwe⟩ | ⟨_, _, _, _, _, hwe⟩
  · rw [hwe]; exact hemid
  · rw [hwe]; exact hemid

/-- Two outbox rows arriving out of id order. -/
def c4Ev1 : EventRow :=
  { eid := 11, etype := "create", path := "/v1.0/nets/x",
    version := GoVal.vint 1, body := "bx" }

/-- Second concrete row, with the larger id, stored first. -/
def c4Ev2 : EventRow :=
  { eid := 12, etype := "create", path := "/v1.0/nets/y",
    version := GoVal.vint 1, body := "by2" }

/-- World whose outbox is out of id order. -/
def c4W : World :=
  { events := [c4Ev2, c4Ev1], kv := { entries := [], ops := [] } }

/-- Witness for C4 at a concrete two-event outbox. -/
theorem c4_pump_drain_witness :
    (listEvents c4W.events).length ≤ eventPollingLimit ∧
    idSorted (listEvents c4W.events) := by
  have h := c4_pump_drain pEnv c4W (serverSync pEnv c4W).1
    (serverSync pEnv c4W).2 (by decide) rfl rfl
  exact ⟨h.1, h.2.1⟩

/-! ## State-record store lemmas -/

/-- Updating a present key makes the lookup return the new record. -/
theorem lookupSR_setSR_self (k : String × String) (v : StateRec)
    (l : List ((String × String) × StateRec)) (rec : StateRec)
    (h : lookupSR k l = some rec) :
    lookupSR k (setSR k v l) = some v := by
  induction l with
  | nil => simp [lookupSR] at h
  | cons x xs ih =>
    obtain ⟨k2, r⟩ := x
    unfold lookupSR at h
    unfold setSR
    by_cases hk : k2 = k
    · rw [if_pos hk]
      unfold lookupSR
      rw [if_pos hk]
    · rw [if_neg hk]
      unfold lookupSR
      rw [if_neg hk]
      rw [if_neg hk] at h
      exact ih h

/-- Updating one key leaves other keys' lookups alone. -/
theorem lookupSR_setSR_ne (k k' : String × String) (v : StateRec)
    (l : List ((String × String) × StateRec))
    (h : k' ≠ k) :
    lookupSR k' (setSR k v l) = lookupSR k' l := by
  induction l with
  | nil => rfl
  | cons x xs ih =>
    obtain ⟨k2, r⟩ := x
    unfold setSR
    by_cases hk : k2 = k
    · rw [if_pos hk]
      unfold lookupSR
      rw [if_neg (by rw [hk]; exact fun hx => h hx.symm),
          if_neg (by rw [hk]; exact fun hx => h hx.symm)]
      exact ih
    · rw [if_neg hk]
      unfold lookupSR
      by_cases hk2 : k2 = k'
      · rw [if_pos hk2, if_pos hk2]
      · rw [if_neg hk2, if_neg hk2]
        exact ih

/-- stateSet over a present key, seen through stateGet. -/
theorem stateGet_set_self (db : DBState) (k : String × String)
    (v rec : StateRec) (h : stateGet db k = some rec) :
    stateGet (stateSet db k v) k = some v :=
  lookupSR_setSR_self k v db.states rec h

/-- stateSet leaves other keys alone. -/
theorem stateGet_set_ne (db : DBState) (k k' : String × String)
    (v : StateRec) (h : k' ≠ k) :
    stateGet (stateSet db k v) k' = stateGet db k' :=
  lookupSR_setSR_ne k k' v db.states h

/-- The error/state copies never touch the version fields. -/
theorem copyErrState_versions (data : List (String × GoVal)) (rs : StateRec) :
    (copyErrState data rs).stateVersion = rs.stateVersion ∧
    (copyErrState data rs).configVersion = rs.configVersion := by
  unfold copyErrState copyState copyErr
  constructor <;> (repeat' split) <;> rfl

/-- A successful hook-wrapped state commit writes exactly the given
record at the given key. -/
theorem commitStateRec_spec (env : RecEnv) (sid : String)
    (k : String × String) (rs : StateRec) (db db' : DBState)
    (h : commitStateRec env sid k rs db = some db') :
    db' = stateSet db k rs := by
  unfold commitStateRec at h
  repeat' split at h
  all_goals simp_all

/-- A successful hook-wrapped monitoring commit writes exactly the given
record at the given key. -/
theorem commitMonRec_spec (env : RecEnv) (sid : String)
    (k : String × String) (rs : StateRec) (db db' : DBState)
    (h : commitMonRec env sid k rs db = some db') :
    db' = stateSet db k rs := by
  unfold commitMonRec at h
  repeat' split at h
  all_goals simp_all

/-- When the write, the commit and any registered hooks succeed, the
monitoring commit path succeeds and writes the record. -/
theorem commitMonRec_ok (env : RecEnv) (sid : String) (k : String × String)
    (rs : StateRec) (db : DBState)
    (hsu : env.stateUpdateOk = true) (hco : env.commitOk = true)
    (hhk : env.haveEnvFor sid = true →
      env.hookOk "pre_monitoring_update_in_transaction" = true ∧
      env.hookOk "post_monitoring_update_in_transaction" = true) :
    commitMonRec env sid k rs db = some (stateSet db k rs) := by
  unfold commitMonRec
  by_cases he : env.haveEnvFor sid = true
  · obtain ⟨hpre, hpost⟩ := hhk he
    rw [if_pos he, hpre, hpost, hsu, hco]
    simp
  · rw [if_neg he, hsu, hco]
    simp

/-- Exhaustive case analysis of StateUpdate: it errors, returns with the
database untouched, or — having found a versioned schema, a state
record not yet caught up, and a numeric payload version at least the
stored state_version — writes that version (with the error/state
copies) back at the resource's key. -/
theorem stateUpdate_cases (env : RecEnv) (ev : SyncEvent) (db : DBState)
    (r : Option DBState) (h : stateUpdate env ev db = r) :
    r = none ∨ r = some db ∨
    ∃ sch rec v,
      env.getSchemaByPath ("/" ++ goTrimPfx ev.key statePfx) = some sch ∧
      sch.stateVersioning = true ∧
      stateGet db (sch.sid,
        env.getResourceIDFromPath ("/" ++ goTrimPfx ev.key statePfx)) =
        some rec ∧
      lookupKV "version" ev.data = some (GoVal.vfloat v) ∧
      rec.stateVersion ≤ v ∧
      r = some (stateSet db
        (sch.sid, env.getResourceIDFromPath ("/" ++ goTrimPfx ev.key statePfx))
        (copyErrState ev.data { rec with stateVersion := v })) := by
  simp only [stateUpdate] at h
  cases hsch : env.getSchemaByPath ("/" ++ goTrimPfx ev.key statePfx) with
  | none =>
    rw [hsch] at h
    exact Or.inr (Or.inl h.symm)
  | some sch =>
    rw [hsch] at h
    dsimp only at h
    by_cases hv : sch.stateVersioning = false
    · rw [if_pos hv] at h
      exact Or.inr (Or.inl h.symm)
    · rw [if_neg hv] at h
      by_cases hbg : env.beginOk = false
      · rw [if_pos hbg] at h
        exact Or.inl h.symm
      · rw [if_neg hbg] at h
        by_cases hiso : env.isolationOk = false
        · rw [if_pos hiso] at h
          exact Or.inl h.symm
        · rw [if_neg hiso] at h
          by_cases hrp : resourcePresent db sch.sid
              (env.getResourceIDFromPath ("/" ++ goTrimPfx ev.key statePfx)) =
              false
          · rw [if_pos hrp] at h
            exact Or.inl h.symm
          · rw [if_neg hrp] at h
            cases hsg : stateGet db (sch.sid,
                env.getResourceIDFromPath ("/" ++ goTrimPfx ev.key statePfx))
                with
            | none =>
              rw [hsg] at h
              exact Or.inl h.symm
            | some rec =>
              rw [hsg] at h
              dsimp only at h
              by_cases hsc : rec.stateVersion = rec.configVersion
              · rw [if_pos hsc] at h
                exact Or.inr (Or.inl h.symm)
              · rw [if_neg hsc] at h
                cases hlv : lookupKV "version" ev.data with
                | none =>
                  rw [hlv] at h
                  exact Or.inl h.symm
                | some gv =>
                  rw [hlv] at h
                  cases gv with
                  | vint n => exact Or.inl h.symm
                  | vint64 n => exact Or.inl h.symm
                  | vstr s2 => exact Or.inl h.symm
                  | vnull => exact Or.inl h.symm
                  | vfloat newV =>
                    dsimp only at h
                    by_cases hlt : newV < rec.stateVersion
                    · rw [if_pos hlt] at h
                      exact Or.inr (Or.inl h.symm)
                    · rw [if_neg hlt] at h
                      cases hr2 : commitStateRec env sch.sid
                          (sch.sid, env.getResourceIDFromPath
                            ("/" ++ goTrimPfx ev.key statePfx))
                          (copyErrState ev.data
                            { rec with stateVersion := newV }) db with
                      | none =>
                        rw [hr2] at h
                        exact Or.inl h.symm
                      | some db2 =>
                        have hspec := commitStateRec_spec env sch.sid _ _ db db2 hr2
                        rw [hr2] at h
                        refine Or.inr (Or.inr ⟨sch, rec, newV, rfl, ?_, hsg,
                          rfl, le_of_not_lt hlt, ?_⟩)
                        · revert hv
                          cases sch.stateVersioning <;> simp
                        · rw [h.symm]
                          exact congrArg some hspec

/-- One StateUpdate step, seen from any state record: the record stays
present, its config_version is untouched, its state_version never
decreases, and if it changed at all the new value is the report's
version. -/
theorem stateUpdate_step (env : RecEnv) (ev : SyncEvent) (db : DBState)
    (key : String × String) (rec0 : StateRec)
    (h : stateGet db key = some rec0) :
    ∃ rec1, stateGet ((stateUpdate env ev db).getD db) key = some rec1 ∧
      rec1.configVersion = rec0.configVersion ∧
      rec0.stateVersion ≤ rec1.stateVersion ∧
      (rec1.stateVersion = rec0.stateVersion ∨
        ∃ v, lookupKV "version" ev.data = some (GoVal.vfloat v) ∧
          rec1.stateVersion = v) := by
  rcases stateUpdate_cases env ev db (stateUpdate env ev db) rfl with
    hr | hr | ⟨sch, rec, v, hsch, hver, hsg, hlv, hle, hr⟩
  · rw [hr]
    exact ⟨rec0, h, rfl, le_refl _, Or.inl rfl⟩
  · rw [hr]
    exact ⟨rec0, h, rfl, le_refl _, Or.inl rfl⟩
  · rw [hr]
    simp only [Option.getD_some]
    by_cases hk : key =
        (sch.sid, env.getResourceIDFromPath ("/" ++ goTrimPfx ev.key statePfx))
    · rw [hk] at h
      have hrr : rec = rec0 := by
        rw [hsg] at h
        exact (Option.some.injEq _ _).mp h
      subst hrr
      have hget := stateGet_set_self db _
        (copyErrState ev.data { rec with stateVersion := v }) rec hsg
      rw [hk]
      obtain ⟨hsv, hcv⟩ := copyErrState_versions ev.data
        { rec with stateVersion := v }
      refine ⟨copyErrState ev.data { rec with stateVersion := v },
        hget, hcv, ?_, Or.inr ⟨v, hlv, hsv⟩⟩
      rw [hsv]
      exact hle
    · have hne := stateGet_set_ne db _ key
        (copyErrState ev.data { rec with stateVersion := v }) hk
      refine ⟨rec0, ?_, rfl, le_refl _, Or.inl rfl⟩
      rw [hne]
      exact h

/-- The per-resource invariant over any sequence of inbound reports:
the record persists with its config_version unchanged, its
state_version never decreases, and — provided every report's version is
at most the resource's config_version — the bound state_version less
than or equal to config_version is maintained. -/
theorem stateUpdateSeq_invariant (env : RecEnv) (evs : List SyncEvent) :
    ∀ (db : DBState) (key : String × String) (rec0 : StateRec),
      stateGet db key = some rec0 →
      rec0.stateVersion ≤ rec0.configVersion →
      (∀ ev ∈ evs, ∀ v, lookupKV "version" ev.data = some (GoVal.vfloat v) →
        v ≤ rec0.configVersion) →
      ∃ rec1, stateGet (stateUpdateSeq env evs db) key = some rec1 ∧
        rec1.configVersion = rec0.configVersion ∧
        rec0.stateVersion ≤ rec1.stateVersion ∧
        rec1.stateVersion ≤ rec1.configVersion := by
  induction evs with
  | nil =>
    intro db key rec0 h hb _
    exact ⟨rec0, h, rfl, le_refl _, hb⟩
  | cons ev rest ih =>
    intro db key rec0 h hb hbound
    obtain ⟨rec1, hget1, hcfg1, hmono1, hshape⟩ :=
      stateUpdate_step env ev db key rec0 h
    have hb1 : rec1.stateVersion ≤ rec1.configVersion := by
      rcases hshape with heq | ⟨v, hlv, hsv⟩
      · rw [heq, hcfg1]
        exact hb
      · rw [hsv, hcfg1]
        exact hbound ev (List.mem_cons_self ev rest) v hlv
    have hbound1 : ∀ ev2 ∈ rest, ∀ v,
        lookupKV "version" ev2.data = some (GoVal.vfloat v) →
        v ≤ rec1.configVersion := by
      intro ev2 hm v hv
      rw [hcfg1]
      exact hbound ev2 (List.mem_cons_of_mem ev hm) v hv
    obtain ⟨rec2, hget2, hcfg2, hmono2, hb2⟩ :=
      ih ((stateUpdate env ev db).getD db) key rec1 hget1 hb1 hbound1
    exact ⟨rec2, hget2, hcfg2.trans hcfg1, hmono1.trans hmono2, hb2⟩

/-- C2 (amended): across any sequence of inbound state reports the
stored state_version is monotonically non-decreasing with
config_version untouched, and the bound state_version at most
config_version is maintained provided every report's version is at most
the resource's config_version; moreover any report that changes the
database at all carries a version at least the stored state_version (so
a lower-versioned report causes no change). -/
theorem c2_state_version_discipline :
    (∀ (env : RecEnv) (evs : List SyncEvent) (db : DBState)
      (key : String × String) (rec0 : StateRec),
      stateGet db key = some rec0 →
      rec0.stateVersion ≤ rec0.configVersion →
      (∀ ev ∈ evs, ∀ v, lookupKV "version" ev.data = some (GoVal.vfloat v) →
        v ≤ rec0.configVersion) →
      ∃ rec1, stateGet (stateUpdateSeq env evs db) key = some rec1 ∧
        rec1.configVersion = rec0.configVersion ∧
        rec0.stateVersion ≤ rec1.stateVersion ∧
        rec1.stateVersion ≤ rec1.configVersion) ∧
    (∀ (env : RecEnv) (ev : SyncEvent) (db db' : DBState),
      stateUpdate env ev db = some db' → db' ≠ db →
      ∃ sch rec v,
        env.getSchemaByPath ("/" ++ goTrimPfx ev.key statePfx) = some sch ∧
        stateGet db (sch.sid,
          env.getResourceIDFromPath ("/" ++ goTrimPfx ev.key statePfx)) =
          some rec ∧
        lookupKV "version" ev.data = some (GoVal.vfloat v) ∧
        rec.stateVersion ≤ v) := by
  constructor
  · intro env evs db key rec0 h hb hbound
    exact stateUpdateSeq_invariant env evs db key rec0 h hb hbound
  · intro env ev db db' h hne
    rcases stateUpdate_cases env ev db (some db') h with hr | hr |
      ⟨sch, rec, v, hsch, _, hsg, hlv, hle, _⟩
    · exact absurd hr (by simp)
    · exact absurd ((Option.some.injEq _ _).mp hr) hne
    · exact ⟨sch, rec, v, hsch, hsg, hlv, hle⟩

/-! ## Concrete instances for the reconciler theorems -/

/-- A versioned schema for the reconciler instances. -/
def rSchema : SchemaT :=
  { sid := "net", stateVersioning := true, nosync := false,
    syncKeyTemplate := none }

/-- Reconciler environment with every external step succeeding and no
extension environment registered. -/
def rEnv : RecEnv :=
  { getSchemaByPath := fun _ => some rSchema
    getResourceIDFromPath := fun _ => "r1"
    beginOk := true
    isolationOk := true
    authOk := true
    haveEnvFor := fun _ => false
    hookOk := fun _ => true
    stateUpdateOk := true
    commitOk := true }

/-- A database holding one resource at config_version 5,
state_version 2. -/
def rDb : DBState :=
  { resources := [("net", "r1")]
    states := [(("net", "r1"),
      { configVersion := 5, stateVersion := 2, state := "", errMsg := "",
        monitoring := "" })] }

/-- An inbound state report carrying version 7 — above the stored
config_version of 5. -/
def c2EvHigh : SyncEvent :=
  { action := "set", key := "/state/v1.0/nets/r1",
    data := [("version", GoVal.vfloat 7)] }

/-- Counterexample to C2 as stated: StateUpdate accepts a report whose
version exceeds config_version and stores it, leaving
state_version = 7 > config_version = 5 — the claimed invariant
state_version less than or equal to config_version does not hold. -/
theorem c2_counterexample :
    (stateGet ((stateUpdate rEnv c2EvHigh rDb).getD rDb) ("net", "r1")).map
        (fun rec => (rec.configVersion, rec.stateVersion)) =
      some ((5 : Int), (7 : Int)) ∧
    ¬ ((7 : Int) ≤ (5 : Int)) :=
  ⟨rfl, by decide⟩

/-- An inbound state report carrying version 4, below config_version. -/
def c2EvOk : SyncEvent :=
  { action := "set", key := "/state/v1.0/nets/r1",
    data := [("version", GoVal.vfloat 4)] }

/-- Witness for C2 (amended) at a concrete one-report sequence. -/
theorem c2_state_version_discipline_witness :
    ∃ rec1, stateGet (stateUpdateSeq rEnv [c2EvOk] rDb) ("net", "r1") =
        some rec1 ∧
      rec1.configVersion = (5 : Int) ∧
      (2 : Int) ≤ rec1.stateVersion ∧
      rec1.stateVersion ≤ rec1.configVersion := by
  have h := c2_state_version_discipline.1 rEnv [c2EvOk] rDb ("net", "r1")
    { configVersion := 5, stateVersion := 2, state := "", errMsg := "",
      monitoring := "" }
    rfl (by decide) ?_
  · exact h
  · intro ev hm v hv
    rw [List.mem_singleton] at hm
    subst hm
    have : GoVal.vfloat 4 = GoVal.vfloat v := by
      simpa [c2EvOk, lookupKV] using hv
    cases this
    decide

/-- C5: MonitoringUpdate writes the report's monitoring string to the
resource's state record if and only if the stored config_version equals
the stored state_version and the payload's version equals config_version
and the payload carries a string monitoring field; in every other case
the state record is left unchanged (the only-if direction holds
unconditionally, the if direction under the modelled success of the
external steps: transaction begin, isolation, resource fetch, the state
write, hooks and commit). -/
theorem c5_monitoring_gate :
    (∀ (env : RecEnv) (ev : SyncEvent) (db db' : DBState),
      monitoringUpdate env ev db = some db' →
      db' = db ∨
      ∃ sch rec m,
        env.getSchemaByPath ("/" ++ goTrimPfx ev.key monitoringPfx) =
          some sch ∧
        sch.stateVersioning = true ∧
        stateGet db (sch.sid,
          env.getResourceIDFromPath ("/" ++ goTrimPfx ev.key monitoringPfx)) =
          some rec ∧
        rec.configVersion = rec.stateVersion ∧
        lookupKV "version" ev.data = some (GoVal.vfloat rec.configVersion) ∧
        lookupKV "monitoring" ev.data = some (GoVal.vstr m) ∧
        db' = stateSet db (sch.sid,
          env.getResourceIDFromPath ("/" ++ goTrimPfx ev.key monitoringPfx))
          { rec with monitoring := m }) ∧
    (∀ (env : RecEnv) (ev : SyncEvent) (db : DBState) (sch : SchemaT)
      (rec : StateRec) (m : String),
      env.getSchemaByPath ("/" ++ goTrimPfx ev.key monitoringPfx) =
        some sch →
      sch.stateVersioning = true →
      resourcePresent db sch.sid
        (env.getResourceIDFromPath ("/" ++ goTrimPfx ev.key monitoringPfx)) =
        true →
      stateGet db (sch.sid,
        env.getResourceIDFromPath ("/" ++ goTrimPfx ev.key monitoringPfx)) =
        some rec →
      rec.configVersion = rec.stateVersion →
      lookupKV "version" ev.data = some (GoVal.vfloat rec.configVersion) →
      lookupKV "monitoring" ev.data = some (GoVal.vstr m) →
      env.beginOk = true → env.isolationOk = true →
      env.stateUpdateOk = true → env.commitOk = true →
      (env.haveEnvFor sch.sid = true →
        env.hookOk "pre_monitoring_update_in_transaction" = true ∧
        env.hookOk "post_monitoring_update_in_transaction" = true) →
      monitoringUpdate env ev db = some (stateSet db (sch.sid,
        env.getResourceIDFromPath ("/" ++ goTrimPfx ev.key monitoringPfx))
        { rec with monitoring := m })) := by
  constructor
  · intro env ev db db' h
    simp only [monitoringUpdate] at h
    cases hsch : env.getSchemaByPath ("/" ++ goTrimPfx ev.key monitoringPfx)
        with
    | none =>
      rw [hsch] at h
      exact Or.inl ((Option.some.injEq _ _).mp h.symm)
    | some sch =>
      rw [hsch] at h
      dsimp only at h
      by_cases hv : sch.stateVersioning = false
      · rw [if_pos hv] at h
        exact Or.inl ((Option.some.injEq _ _).mp h.symm)
      · rw [if_neg hv] at h
        by_cases hbg : env.beginOk = false
        · rw [if_pos hbg] at h
          exact absurd h (by simp)
        · rw [if_neg hbg] at h
          by_cases hiso : env.isolationOk = false
          · rw [if_pos hiso] at h
            exact absurd h (by simp)
          · rw [if_neg hiso] at h
            by_cases hrp : resourcePresent db sch.sid
                (env.getResourceIDFromPath
                  ("/" ++ goTrimPfx ev.key monitoringPfx)) = false
            · rw [if_pos hrp] at h
              exact absurd h (by simp)
            · rw [if_neg hrp] at h
              cases hsg : stateGet db (sch.sid, env.getResourceIDFromPath
                  ("/" ++ goTrimPfx ev.key monitoringPfx)) with
              | none =>
                rw [hsg] at h
                exact absurd h (by simp)
              | some rec =>
                rw [hsg] at h
                dsimp only at h
                by_cases hcs : rec.configVersion ≠ rec.stateVersion
                · rw [if_pos hcs] at h
                  exact Or.inl ((Option.some.injEq _ _).mp h.symm)
                · rw [if_neg hcs] at h
                  cases hlv : lookupKV "version" ev.data with
                  | none =>
                    rw [hlv] at h
                    exact absurd h (by simp)
                  | some gv =>
                    rw [hlv] at h
                    cases gv with
                    | vint n => exact absurd h (by simp)
                    | vint64 n => exact absurd h (by simp)
                    | vstr s2 => exact absurd h (by simp)
                    | vnull => exact absurd h (by simp)
                    | vfloat mv =>
                      dsimp only at h
                      by_cases hmv : rec.configVersion ≠ mv
                      · rw [if_pos hmv] at h
                        exact Or.inl ((Option.some.injEq _ _).mp h.symm)
                      · rw [if_neg hmv] at h
                        cases hlm : lookupKV "monitoring" ev.data with
                        | none =>
                          rw [hlm] at h
                          exact absurd h (by simp)
                        | some gm =>
                          rw [hlm] at h
                          cases gm with
                          | vint n => exact absurd h (by simp)
                          | vint64 n => exact absurd h (by simp)
                          | vfloat n => exact absurd h (by simp)
                          | vnull => exact absurd h (by simp)
                          | vstr m =>
                            dsimp only at h
                            have hmveq : rec.configVersion = mv :=
                              not_not.mp hmv
                            have hspec := commitMonRec_spec env sch.sid _
                              { rec with monitoring := m } db db' h
                            refine Or.inr ⟨sch, rec, m, rfl, ?_, hsg,
                              not_not.mp hcs, ?_, rfl, hspec⟩
                            · revert hv
                              cases sch.stateVersioning <;> simp
                            · rw [hmveq]
  · intro env ev db sch rec m hsch hver hrp hsg hcs hlv hlm hbg hiso hsu hco
      hhk
    simp only [monitoringUpdate]
    rw [hsch]
    dsimp only
    rw [if_neg (by simp [hver]), if_neg (by simp [hbg]),
      if_neg (by simp [hiso]), if_neg (by simp [hrp]), hsg]
    dsimp only
    rw [if_neg (not_not_intro hcs), hlv]
    dsimp only
    rw [if_neg (not_not_intro rfl), hlm]
    dsimp only
    exact commitMonRec_ok env sch.sid _ { rec with monitoring := m } db
      hsu hco hhk

/-- A database whose resource has converged: config_version =
state_version = 5. -/
def rDb5 : DBState :=
  { resources := [("net", "r1")]
    states := [(("net", "r1"),
      { configVersion := 5, stateVersion := 5, state := "UP", errMsg := "",
        monitoring := "" })] }

/-- An inbound monitoring report at the matching version 5. -/
def c5Ev : SyncEvent :=
  { action := "set", key := "/monitoring/v1.0/nets/r1",
    data := [("version", GoVal.vfloat 5), ("monitoring", GoVal.vstr "ok")] }

/-- Witness for C5 at a concrete converged resource: the monitoring
string is written. -/
theorem c5_monitoring_gate_witness :
    monitoringUpdate rEnv c5Ev rDb5 = some (stateSet rDb5 ("net",
      rEnv.getResourceIDFromPath ("/" ++ goTrimPfx c5Ev.key monitoringPfx))
      { configVersion := 5, stateVersion := 5, state := "UP", errMsg := "",
        monitoring := "ok" }) :=
  c5_monitoring_gate.2 rEnv c5Ev rDb5 rSchema
    { configVersion := 5, stateVersion := 5, state := "UP", errMsg := "",
      monitoring := "" } "ok"
    rfl rfl rfl rfl rfl rfl rfl rfl rfl rfl rfl
    (fun h => absurd h (by decide))

end Gohan
